import Mathlib

/-!
Verification of the account-authentication core of MultiMC5
(src/logic/minecraft/auth/MojangAccount.h) against its specification.

The header file is the authority for everything it implements inline:
`MojangProfile` (avatar URLs), `MojangAccount::setProfiles`,
`MojangAccount::operator[]` / `size`, the `AccountStatus` enumeration and
the stored fields (`m_currentProfile`, `m_profiles`, `m_user`,
`m_currentTask`).  The out-of-line implementations (`load`/`save`,
`setCurrentProfile`, `accountStatus`, the Yggdrasil task machinery and the
`BaseAccount` token store) are not part of the available sources; those
operations are modelled from the specification, each marked
`Modelled from the spec:` in its doc comment.
-/

namespace Mojang

/-- Shallow embedding of `MojangProfile` (MojangAccount.h lines 48-101):
fields `m_name`, `m_id`, `m_legacy`. -/
structure MojangProfile where
  m_name : String
  m_id : String
  m_legacy : Bool
deriving DecidableEq, Repr

/-- `MojangProfile::nickname` (line 56): returns `m_name`. -/
def MojangProfile.nickname (p : MojangProfile) : String := p.m_name

/-- `MojangProfile::profileId` (line 60): returns `m_id`. -/
def MojangProfile.profileId (p : MojangProfile) : String := p.m_id

/-- `MojangProfile::avatar` (lines 72-79): empty string when `m_id` is
empty, otherwise the crafatar avatars URL templated on `m_id`. -/
def MojangProfile.avatar (p : MojangProfile) : String :=
  if p.m_id = "" then "" else "web:https://crafatar.com/avatars/" ++ p.m_id

/-- `MojangProfile::bigAvatar` (lines 80-87): empty string when `m_id` is
empty, otherwise the crafatar body-render URL templated on `m_id`. -/
def MojangProfile.bigAvatar (p : MojangProfile) : String :=
  if p.m_id = "" then "" else "web:https://crafatar.com/renders/body/" ++ p.m_id

/-- `AccountStatus` (MojangAccount.h lines 103-107). -/
inductive AccountStatus
  | NotVerified
  | Verified
deriving DecidableEq, Repr

/-- Modelled from the spec: `MojangAuthSession::User` (the session header is
not in the sources).  Per spec section 3 it is an opaque structure of
server-asserted identity fields; embedded as a key/value list. -/
structure User where
  properties : List (String × String)
deriving DecidableEq, Repr

/-- Shallow embedding of the `MojangAccount` state (MojangAccount.h lines
223-234 plus the token mapping inherited from `BaseAccount`):
`m_currentProfile` is the raw profile pointer (`none` = `nullptr`),
`m_profiles` the owned profile list, `m_user` the user structure.
`tokens` is the `BaseAccount` name-to-secret mapping (BaseAccount.h is not
in the sources; the mapping itself is modelled from the spec, section 3).
`verified` is the verification flag tracked per spec section 4.3 to derive
`accountStatus` (the implementation of `accountStatus` is out of line and
not in the sources). -/
structure MojangAccount where
  tokens : List (String × String)
  m_profiles : List MojangProfile
  m_currentProfile : Option MojangProfile
  m_user : User
  verified : Bool
deriving DecidableEq, Repr

/-- `MojangAccount::profiles` (lines 189-192): returns `m_profiles`. -/
def MojangAccount.profiles (a : MojangAccount) : List MojangProfile :=
  a.m_profiles

/-- `MojangAccount::user` (lines 194-197): returns `m_user`. -/
def MojangAccount.user (a : MojangAccount) : User := a.m_user

/-- `MojangAccount::currentProfile` (lines 200-203): returns the
`m_currentProfile` pointer, `none` when null. -/
def MojangAccount.currentProfile (a : MojangAccount) : Option MojangProfile :=
  a.m_currentProfile

/-- The identifier of the currently selected profile, `none` when no
profile is selected. -/
def MojangAccount.currentProfileId (a : MojangAccount) : Option String :=
  a.m_currentProfile.map (fun p => p.m_id)

/-- `MojangAccount::size` (lines 211-214): `m_profiles.size()`. -/
def MojangAccount.size (a : MojangAccount) : Nat := a.m_profiles.length

/-- `MojangAccount::operator[]` (lines 204-210): the profile at `index`
when `index < size()`, `nullptr` (here `none`) otherwise. -/
def MojangAccount.atIndex (a : MojangAccount) (index : Nat) : Option MojangProfile :=
  if h : index < a.size then some (a.m_profiles.get ⟨index, h⟩) else none

/-- `MojangAccount::setProfiles` (lines 157-161): assigns `m_profiles`;
nothing else is touched (the `changed()` call is commented out and
`m_currentProfile` is not updated). -/
def MojangAccount.setProfiles (a : MojangAccount) (profiles : List MojangProfile) :
    MojangAccount :=
  { a with m_profiles := profiles }

/-- `MojangAccount::setUser` (lines 162-166): assigns `m_user`. -/
def MojangAccount.setUser (a : MojangAccount) (user : User) : MojangAccount :=
  { a with m_user := user }

/-- Failure of a token-store access on an undefined token name
(spec sections 4.1 and 7). -/
inductive TokenError
  | InvalidTokenName
deriving DecidableEq, Repr

/-- The token names stored by `MojangAccount`, from the doc comment at
MojangAccount.h lines 115-121: `login_username`, `username`, `accessToken`,
`clientToken`, `uuid`. -/
def tokenNames : List String :=
  ["login_username", "username", "accessToken", "clientToken", "uuid"]

/-- Insert-or-replace into the token mapping, keeping the first binding of
each name. -/
def insertToken : List (String × String) → String → String → List (String × String)
  | [], name, value => [(name, value)]
  | (k, w) :: rest, name, value =>
    if k = name then (name, value) :: rest else (k, w) :: insertToken rest name value

/-- Modelled from the spec: `BaseAccount::token` (BaseAccount.h is not in
the sources).  Per spec section 4.1 a defined name yields the stored secret
(absent entries read as `""`, section 3) and an undefined name fails with
`InvalidTokenName`; the defined-name set is the stored-token list documented
at MojangAccount.h lines 115-121. -/
def MojangAccount.getToken (a : MojangAccount) (name : String) :
    Except TokenError String :=
  if name ∈ tokenNames then .ok ((a.tokens.lookup name).getD "")
  else .error .InvalidTokenName

/-- Modelled from the spec: `BaseAccount::setToken` (BaseAccount.h is not in
the sources).  A defined name updates the mapping; an undefined name fails
with `InvalidTokenName` (spec sections 4.1 and 7). -/
def MojangAccount.setToken (a : MojangAccount) (name value : String) :
    Except TokenError MojangAccount :=
  if name ∈ tokenNames then .ok { a with tokens := insertToken a.tokens name value }
  else .error .InvalidTokenName

/-- Modelled from the spec: `MojangAccount::accountStatus` (declared at
MojangAccount.h line 221, implementation out of line and not in the
sources).  Spec section 4.3: derives `Verified` from the tracked
verification flag, `NotVerified` otherwise. -/
def MojangAccount.accountStatus (a : MojangAccount) : AccountStatus :=
  if a.verified then .Verified else .NotVerified

/-- Modelled from the spec: `MojangAccount::setCurrentProfile` (declared at
MojangAccount.h lines 150-155, implementation out of line and not in the
sources).  Per the header doc comment and spec section 4.2: selects the
profile with the given id if present and returns `true`; otherwise returns
`false` leaving the account untouched. -/
def MojangAccount.setCurrentProfile (a : MojangAccount) (profileId : String) :
    Bool × MojangAccount :=
  match a.m_profiles.find? (fun p => p.m_id = profileId) with
  | some p => (true, { a with m_currentProfile := some p })
  | none => (false, a)

/-- The four failure outcomes of a Login task (spec sections 4.4 and 7). -/
inductive LoginFailure
  | InvalidCredentials
  | NetworkError
  | MalformedResponse
  | ServerError
deriving DecidableEq, Repr

/-- Modelled from the spec: the account mutation performed when a Login
task (`createLoginTask`, MojangAccount.h lines 144-145; the Yggdrasil task
implementation is not in the sources) completes with a failure.  Spec
section 4.4: account state is left exactly as before; the status becomes
`NotVerified` only for `InvalidCredentials`. -/
def applyLoginFailure (a : MojangAccount) (f : LoginFailure) : MojangAccount :=
  match f with
  | .InvalidCredentials => { a with verified := false }
  | .NetworkError => a
  | .MalformedResponse => a
  | .ServerError => a

/-- The failure outcomes of a Validate task (spec sections 4.4 and 7). -/
inductive ValidateFailure
  | InvalidToken
  | NetworkError
deriving DecidableEq, Repr

/-- Modelled from the spec: the account mutation performed when a Validate
task (`createCheckTask`, MojangAccount.h line 146; the Yggdrasil task
implementation is not in the sources) completes with a failure.  Spec
section 4.4: status becomes `NotVerified`; `InvalidToken` additionally
clears `accessToken` but preserves `clientToken`. -/
def applyValidateFailure (a : MojangAccount) : ValidateFailure → MojangAccount
  | .InvalidToken =>
    { a with tokens := insertToken a.tokens "accessToken" "", verified := false }
  | .NetworkError => { a with verified := false }

/-- Modelled from the spec: the local account mutation performed by a
Logout task (`createLogoutTask`, MojangAccount.h line 147; the Yggdrasil
task implementation is not in the sources).  Spec section 4.4: regardless
of the best-effort remote invalidation outcome (`remoteOk`), all tokens are
cleared, profiles and the current selection are cleared, and the status
becomes `NotVerified`. -/
def applyLogout (a : MojangAccount) (remoteOk : Bool) : MojangAccount :=
  match remoteOk with
  | true => { a with tokens := [], m_profiles := [], m_currentProfile := none,
                     verified := false }
  | false => { a with tokens := [], m_profiles := [], m_currentProfile := none,
                      verified := false }

/-- The persisted document of an account (spec sections 4.5 and 6): format
version, token mapping, profile list (id, name, legacy flag),
current-profile id, user metadata. -/
structure AccountDocument where
  formatVersion : Nat
  tokens : List (String × String)
  profileList : List (String × String × Bool)
  currentProfileId : Option String
  userData : List (String × String)
deriving DecidableEq, Repr

/-- Modelled from the spec: `MojangAccount::save` (declared at
MojangAccount.h lines 138-139, implementation out of line and not in the
sources).  Writes the token mapping, the profile list as (id, name, legacy)
records, the current-profile id and the user metadata (spec section 6). -/
def MojangAccount.save (a : MojangAccount) : AccountDocument :=
  { formatVersion := 3
    tokens := a.tokens
    profileList := a.m_profiles.map (fun p => (p.m_id, p.m_name, p.m_legacy))
    currentProfileId := a.currentProfileId
    userData := a.m_user.properties }

/-- Modelled from the spec: `MojangAccount::load` (declared at
MojangAccount.h lines 135-136, implementation out of line and not in the
sources).  Rebuilds the profile list and restores the current selection by
looking the saved id up in the loaded profiles (spec section 3: the current
profile is a lookup by identifier into the profile list). -/
def loadAccount (d : AccountDocument) : MojangAccount :=
  let ps := d.profileList.map (fun r => MojangProfile.mk r.2.1 r.1 r.2.2)
  { tokens := d.tokens
    m_profiles := ps
    m_currentProfile := d.currentProfileId.bind (fun i => ps.find? (fun p => p.m_id = i))
    m_user := ⟨d.userData⟩
    verified := false }

/-- The lifecycle states of an authentication task (spec section 4.4). -/
inductive TaskState
  | Created
  | Running
  | Succeeded
  | Failed
  | Cancelled
deriving DecidableEq, Repr

/-- Outcome of asking an account to start an authentication task. -/
inductive StartOutcome
  | Started
  | TaskAlreadyRunning
deriving DecidableEq, Repr

/-- Modelled from the spec: the per-account task-ownership state (the
account owns `m_currentTask`, MojangAccount.h lines 233-234; the Yggdrasil
task implementation is not in the sources).  `tasks` records the state of
every task ever created for the account (index = creation order),
`m_currentTask` the index of the in-flight task owned by the account, and
`remoteCalls` counts contacts of the remote endpoint. -/
structure AuthSystem where
  tasks : List TaskState
  m_currentTask : Option Nat
  remoteCalls : Nat
deriving DecidableEq, Repr

/-- A freshly created account owns no task and has issued no remote call. -/
def initSystem : AuthSystem := { tasks := [], m_currentTask := none, remoteCalls := 0 }

/-- Modelled from the spec: starting an authentication task (spec sections
4.4 and 5).  If a task is already owned the attempt fails immediately with
`TaskAlreadyRunning` and nothing changes (no remote call); otherwise a new
task enters `Running`, becomes the owned current task, and one remote
exchange is issued. -/
def startTask (s : AuthSystem) : AuthSystem × StartOutcome :=
  match s.m_currentTask with
  | some _ => (s, .TaskAlreadyRunning)
  | none =>
    ({ tasks := s.tasks ++ [TaskState.Running],
       m_currentTask := some s.tasks.length,
       remoteCalls := s.remoteCalls + 1 }, .Started)

/-- Modelled from the spec: completion of the owned task (success or
failure), which moves it to a terminal state and clears the account's
current-task reference; with no owned task it is a no-op (spec sections 3
and 4.4). -/
def completeTask (s : AuthSystem) (ok : Bool) : AuthSystem :=
  match s.m_currentTask with
  | some i =>
    { tasks := s.tasks.set i (if ok then TaskState.Succeeded else TaskState.Failed),
      m_currentTask := none,
      remoteCalls := s.remoteCalls }
  | none => s

/-- Modelled from the spec: cancellation of the owned task (spec section
5): the task becomes `Cancelled` and the current-task ownership is
released. -/
def cancelTask (s : AuthSystem) : AuthSystem :=
  match s.m_currentTask with
  | some i =>
    { tasks := s.tasks.set i TaskState.Cancelled,
      m_currentTask := none,
      remoteCalls := s.remoteCalls }
  | none => s

/-- The events driving an account's task-ownership state. -/
inductive AuthEvent
  | start
  | complete (ok : Bool)
  | cancel
deriving DecidableEq, Repr

/-- One step of the task-ownership state machine. -/
def stepEvent (s : AuthSystem) : AuthEvent → AuthSystem
  | .start => (startTask s).1
  | .complete ok => completeTask s ok
  | .cancel => cancelTask s

/-- The state reached from a fresh account after a sequence of events. -/
def runEvents (evs : List AuthEvent) : AuthSystem :=
  evs.foldl stepEvent initSystem

/-- Ownership invariant: a task is `Running` exactly when it is the
account's owned current task. -/
def TaskInv (s : AuthSystem) : Prop :=
  ∀ j, s.tasks[j]? = some TaskState.Running ↔ s.m_currentTask = some j

/-! ### Concrete sample data used by witnesses and counterexamples -/

/-- A sample profile. -/
def pAlice : MojangProfile := { m_name := "Alice", m_id := "p1", m_legacy := false }

/-- Another sample profile, with a different identifier. -/
def pBob : MojangProfile := { m_name := "Bob", m_id := "p2", m_legacy := false }

/-- A sample verified account holding one profile, selected. -/
def sampleAccount : MojangAccount :=
  { tokens := [("clientToken", "c1"), ("accessToken", "a1")]
    m_profiles := [pAlice]
    m_currentProfile := some pAlice
    m_user := ⟨[("uuid", "u1")]⟩
    verified := true }

/-! ### Supporting lemmas -/

/-- Looking up the freshly inserted name yields the inserted value. -/
theorem lookup_insertToken_self (m : List (String × String)) (n v : String) :
    (insertToken m n v).lookup n = some v := by
  induction m with
  | nil => simp [insertToken, List.lookup]
  | cons kv rest ih =>
    obtain ⟨k, w⟩ := kv
    by_cases hk : k = n
    · subst hk
      simp [insertToken, List.lookup]
    · have hbeq : (n == k) = false := beq_eq_false_iff_ne.mpr (Ne.symm hk)
      simp [insertToken, hk, List.lookup, hbeq, ih]

/-- Insertion of a different name does not change a lookup. -/
theorem lookup_insertToken_ne (m : List (String × String)) (k n v : String)
    (h : k ≠ n) : (insertToken m n v).lookup k = m.lookup k := by
  have hbkn : (k == n) = false := beq_eq_false_iff_ne.mpr h
  induction m with
  | nil => simp [insertToken, List.lookup, hbkn]
  | cons kv rest ih =>
    obtain ⟨k', w⟩ := kv
    by_cases hk : k' = n
    · subst hk
      simp [insertToken, List.lookup, hbkn]
    · cases hkk : k == k' with
      | true => simp [insertToken, hk, List.lookup, hkk]
      | false => simp [insertToken, hk, List.lookup, hkk, ih]

/-- The fresh account satisfies the ownership invariant. -/
theorem taskInv_init : TaskInv initSystem := by
  intro j
  simp [initSystem]

/-- Every step of the task-ownership machine preserves the invariant. -/
theorem taskInv_step (s : AuthSystem) (e : AuthEvent) (h : TaskInv s) :
    TaskInv (stepEvent s e) := by
  cases e with
  | start =>
    cases hc : s.m_currentTask with
    | some i =>
      simpa [stepEvent, startTask, hc] using h
    | none =>
      intro j
      simp only [stepEvent, startTask, hc]
      constructor
      · intro hj
        rcases Nat.lt_or_ge j s.tasks.length with hlt | hge
        · rw [List.getElem?_append, if_pos hlt] at hj
          exact absurd ((h j).mp hj) (by simp [hc])
        · rw [List.getElem?_append_right hge] at hj
          rcases Nat.eq_or_lt_of_le hge with heq | hlt'
          · exact congrArg some heq
          · rw [List.getElem?_eq_none (by simp; omega)] at hj
            exact absurd hj (by simp)
      · intro hj
        have hj' : s.tasks.length = j := by simpa using hj
        subst hj'
        exact List.getElem?_concat_length s.tasks TaskState.Running
  | complete ok =>
    cases hc : s.m_currentTask with
    | some i =>
      intro j
      simp only [stepEvent, completeTask, hc]
      constructor
      · intro hj
        rw [List.getElem?_set] at hj
        by_cases hij : i = j
        · subst hij
          by_cases hlen : i < s.tasks.length
          · rw [if_pos rfl, if_pos hlen] at hj
            cases ok <;> simp_all
          · rw [if_pos rfl, if_neg hlen] at hj
            exact absurd hj (by simp)
        · rw [if_neg hij] at hj
          have h2 := (h j).mp hj
          rw [hc] at h2
          exact absurd (Option.some.inj h2) hij
      · intro hj
        exact absurd hj (by simp)
    | none =>
      simpa [stepEvent, completeTask, hc] using h
  | cancel =>
    cases hc : s.m_currentTask with
    | some i =>
      intro j
      simp only [stepEvent, cancelTask, hc]
      constructor
      · intro hj
        rw [List.getElem?_set] at hj
        by_cases hij : i = j
        · subst hij
          by_cases hlen : i < s.tasks.length
          · rw [if_pos rfl, if_pos hlen] at hj
            exact absurd hj (by simp)
          · rw [if_pos rfl, if_neg hlen] at hj
            exact absurd hj (by simp)
        · rw [if_neg hij] at hj
          have h2 := (h j).mp hj
          rw [hc] at h2
          exact absurd (Option.some.inj h2) hij
      · intro hj
        exact absurd hj (by simp)
    | none =>
      simpa [stepEvent, cancelTask, hc] using h

/-- The ownership invariant holds in every reachable state. -/
theorem taskInv_run (evs : List AuthEvent) : TaskInv (runEvents evs) := by
  suffices hgen : ∀ (l : List AuthEvent) (s : AuthSystem),
      TaskInv s → TaskInv (l.foldl stepEvent s) by
    exact hgen evs initSystem taskInv_init
  intro l
  induction l with
  | nil => exact fun s hs => hs
  | cons e rest ih =>
    intro s hs
    exact ih (stepEvent s e) (taskInv_step s e hs)

/-! ### Claim theorems -/

/-- C9: `MojangProfile::avatar` and `MojangProfile::bigAvatar` are pure
functions of the profile identifier: an empty identifier yields the empty
string, and otherwise they yield the crafatar-style URL templated on the
identifier (`avatars/<id>` for `avatar`, `renders/body/<id>` for
`bigAvatar`). -/
theorem profile_avatar_pure_function_of_id (p : MojangProfile) :
    (p.m_id = "" → p.avatar = "" ∧ p.bigAvatar = "") ∧
    (p.m_id ≠ "" →
      p.avatar = "web:https://crafatar.com/avatars/" ++ p.m_id ∧
      p.bigAvatar = "web:https://crafatar.com/renders/body/" ++ p.m_id) ∧
    (∀ q : MojangProfile, q.m_id = p.m_id →
      q.avatar = p.avatar ∧ q.bigAvatar = p.bigAvatar) := by
  refine ⟨fun h => ?_, fun h => ?_, fun q hq => ?_⟩
  · simp [MojangProfile.avatar, MojangProfile.bigAvatar, h]
  · simp [MojangProfile.avatar, MojangProfile.bigAvatar, h]
  · simp [MojangProfile.avatar, MojangProfile.bigAvatar, hq]

/-- Witness for C9 at the concrete profile `pAlice`. -/
theorem profile_avatar_pure_function_of_id_witness :
    pAlice.m_id ≠ "" ∧
    pAlice.avatar = "web:https://crafatar.com/avatars/" ++ pAlice.m_id ∧
    pAlice.bigAvatar = "web:https://crafatar.com/renders/body/" ++ pAlice.m_id :=
  ⟨by decide, (profile_avatar_pure_function_of_id pAlice).2.1 (by decide)⟩

/-- C10: `MojangAccount::operator[]` returns the i-th profile when
`i < size()` and a null (absent) result when `i ≥ size()`. -/
theorem account_index_in_bounds (a : MojangAccount) (i : Nat) :
    (∀ h : i < a.size, a.atIndex i = some (a.m_profiles.get ⟨i, h⟩)) ∧
    (a.size ≤ i → a.atIndex i = none) := by
  constructor
  · intro h
    simp [MojangAccount.atIndex, h]
  · intro h
    simp [MojangAccount.atIndex, Nat.not_lt.mpr h]

/-- Witness for C10 at the concrete account `sampleAccount`. -/
theorem account_index_in_bounds_witness :
    sampleAccount.size ≤ 3 ∧ sampleAccount.atIndex 3 = none ∧
    sampleAccount.atIndex 0 = some pAlice :=
  ⟨by decide, (account_index_in_bounds sampleAccount 3).2 (by decide),
   by
    have h := (account_index_in_bounds sampleAccount 0).1 (by decide)
    exact h.trans (by decide)⟩

/-- C3 counterexample: `MojangAccount::setProfiles` only assigns
`m_profiles`; after replacing the list with one missing the selected
profile's identifier, `currentProfile()` still returns the stale selection
instead of being empty, so the presence invariant fails. -/
theorem setProfiles_stale_selection_counterexample :
    sampleAccount.currentProfileId = some "p1" ∧
    (sampleAccount.setProfiles [pBob]).m_profiles = [pBob] ∧
    pBob.m_id = "p2" ∧
    (sampleAccount.setProfiles [pBob]).currentProfile = some pAlice ∧
    (sampleAccount.setProfiles [pBob]).currentProfile ≠ none := by
  decide

/-- C3 (amended): `setProfiles` replaces the profile list and leaves all
other account state, the current-profile selection included, unchanged —
even when the selected profile's identifier is absent from the new list. -/
theorem setProfiles_leaves_selection (a : MojangAccount)
    (ps : List MojangProfile) :
    (a.setProfiles ps).m_profiles = ps ∧
    (a.setProfiles ps).m_currentProfile = a.m_currentProfile ∧
    (a.setProfiles ps).tokens = a.tokens ∧
    (a.setProfiles ps).m_user = a.m_user ∧
    (a.setProfiles ps).verified = a.verified := by
  simp [MojangAccount.setProfiles]

/-- C7: `setCurrentProfile(id)` succeeds and updates the selection iff `id`
matches a profile in the current sequence; for an absent `id` it returns
`false` and leaves the account (selection included) unchanged. -/
theorem setCurrentProfile_query_then_act (a : MojangAccount)
    (profileId : String) :
    ((a.setCurrentProfile profileId).1 = true ↔
      ∃ p ∈ a.m_profiles, p.m_id = profileId) ∧
    ((∀ p ∈ a.m_profiles, p.m_id ≠ profileId) →
      a.setCurrentProfile profileId = (false, a)) ∧
    (∀ p, a.m_profiles.find? (fun q => q.m_id = profileId) = some p →
      a.setCurrentProfile profileId =
        (true, { a with m_currentProfile := some p }) ∧
      p ∈ a.m_profiles ∧ p.m_id = profileId) := by
  refine ⟨?_, ?_, ?_⟩
  · cases hf : a.m_profiles.find? (fun q => q.m_id = profileId) with
    | some p =>
      simp only [MojangAccount.setCurrentProfile, hf]
      simp only [true_iff]
      exact ⟨p, List.mem_of_find?_eq_some hf, by simpa using List.find?_some hf⟩
    | none =>
      simp only [MojangAccount.setCurrentProfile, hf]
      simp only [Bool.false_eq_true, false_iff]
      intro hex
      obtain ⟨p, hp, hid⟩ := hex
      have := List.find?_eq_none.mp hf p hp
      simp [hid] at this
  · intro hall
    have hf : a.m_profiles.find? (fun q => q.m_id = profileId) = none := by
      rw [List.find?_eq_none]
      intro p hp
      simpa using hall p hp
    simp [MojangAccount.setCurrentProfile, hf]
  · intro p hf
    exact ⟨by simp [MojangAccount.setCurrentProfile, hf],
      List.mem_of_find?_eq_some hf, by simpa using List.find?_some hf⟩

/-- Witness for C7 at the concrete account `sampleAccount` and an absent
identifier. -/
theorem setCurrentProfile_query_then_act_witness :
    sampleAccount.setCurrentProfile "missing-id" = (false, sampleAccount) :=
  (setCurrentProfile_query_then_act sampleAccount "missing-id").2.1 (by decide)

/-- C8 counterexample: the source doc comment (MojangAccount.h lines
115-121) lists `login_username`, `username` and `uuid` among the tokens
stored by `MojangAccount`, so the name `uuid` — outside the claimed
two-element set of `clientToken` and `accessToken` — is a defined token
name whose get and set succeed rather than failing with
`InvalidTokenName`. -/
theorem token_name_uuid_counterexample :
    "uuid" ∉ (["clientToken", "accessToken"] : List String) ∧
    sampleAccount.getToken "uuid" = Except.ok "" ∧
    sampleAccount.setToken "uuid" "v" =
      Except.ok
        { sampleAccount with tokens := insertToken sampleAccount.tokens "uuid" "v" } :=
  ⟨by decide, rfl, rfl⟩

/-- C8 (amended): for every token name outside the stored-token set
documented in the source — `login_username`, `username`, `accessToken`,
`clientToken`, `uuid` — both get and set fail with `InvalidTokenName`,
with no remote interaction (the token store is purely local). -/
theorem token_undefined_name_fails (a : MojangAccount) (name value : String)
    (h : name ∉ tokenNames) :
    a.getToken name = Except.error TokenError.InvalidTokenName ∧
    a.setToken name value = Except.error TokenError.InvalidTokenName := by
  constructor
  · simp [MojangAccount.getToken, h]
  · simp [MojangAccount.setToken, h]

/-- Witness for the amended C8 at a concrete undefined token name. -/
theorem token_undefined_name_fails_witness :
    sampleAccount.getToken "password" = Except.error TokenError.InvalidTokenName ∧
    sampleAccount.setToken "password" "x" = Except.error TokenError.InvalidTokenName :=
  token_undefined_name_fails sampleAccount "password" "x" (by decide)

/-- C4: a failed Login task leaves the account's tokens, profiles,
current-profile selection and user metadata exactly as before the call,
and the derived status becomes `NotVerified` only in the
`InvalidCredentials` case. -/
theorem login_failure_preserves_account (a : MojangAccount) (f : LoginFailure) :
    (applyLoginFailure a f).tokens = a.tokens ∧
    (applyLoginFailure a f).m_profiles = a.m_profiles ∧
    (applyLoginFailure a f).m_currentProfile = a.m_currentProfile ∧
    (applyLoginFailure a f).m_user = a.m_user ∧
    (f = LoginFailure.InvalidCredentials →
      (applyLoginFailure a f).accountStatus = AccountStatus.NotVerified) ∧
    (f ≠ LoginFailure.InvalidCredentials →
      (applyLoginFailure a f).accountStatus = a.accountStatus) := by
  cases f <;> simp [applyLoginFailure, MojangAccount.accountStatus]

/-- Witness for C4 at the concrete account `sampleAccount`. -/
theorem login_failure_preserves_account_witness :
    (applyLoginFailure sampleAccount LoginFailure.NetworkError).accountStatus =
      sampleAccount.accountStatus ∧
    (applyLoginFailure sampleAccount LoginFailure.InvalidCredentials).accountStatus =
      AccountStatus.NotVerified :=
  ⟨(login_failure_preserves_account sampleAccount
      LoginFailure.NetworkError).2.2.2.2.2 (by decide),
   (login_failure_preserves_account sampleAccount
      LoginFailure.InvalidCredentials).2.2.2.2.1 rfl⟩

/-- C5: after a Validate task fails with `InvalidToken`, `accountStatus()`
is `NotVerified`, `getToken("accessToken")` yields the empty string, and
`getToken("clientToken")` is unchanged. -/
theorem validate_invalid_token_clears_access (a : MojangAccount) :
    (applyValidateFailure a ValidateFailure.InvalidToken).accountStatus =
      AccountStatus.NotVerified ∧
    (applyValidateFailure a ValidateFailure.InvalidToken).getToken "accessToken" =
      Except.ok "" ∧
    (applyValidateFailure a ValidateFailure.InvalidToken).getToken "clientToken" =
      a.getToken "clientToken" := by
  refine ⟨?_, ?_, ?_⟩
  · simp [applyValidateFailure, MojangAccount.accountStatus]
  · simp [applyValidateFailure, MojangAccount.getToken, tokenNames,
      lookup_insertToken_self]
  · simp [applyValidateFailure, MojangAccount.getToken, tokenNames,
      lookup_insertToken_ne a.tokens "clientToken" "accessToken" "" (by decide)]

/-- C6: the local effect of a Logout task, regardless of the remote
invalidation outcome, leaves every token empty, the profile list empty, the
current-profile selection empty, and the status `NotVerified`. -/
theorem logout_clears_local_state (a : MojangAccount) (remoteOk : Bool) :
    (∀ name ∈ tokenNames, (applyLogout a remoteOk).getToken name = Except.ok "") ∧
    (applyLogout a remoteOk).m_profiles = [] ∧
    (applyLogout a remoteOk).m_currentProfile = none ∧
    (applyLogout a remoteOk).accountStatus = AccountStatus.NotVerified := by
  refine ⟨fun name hname => ?_, ?_, ?_, ?_⟩
  · cases remoteOk <;>
      simp [applyLogout, MojangAccount.getToken, hname, List.lookup]
  · cases remoteOk <;> simp [applyLogout]
  · cases remoteOk <;> simp [applyLogout]
  · cases remoteOk <;> simp [applyLogout, MojangAccount.accountStatus]

/-- Witness for C6 at the concrete account `sampleAccount`. -/
theorem logout_clears_local_state_witness :
    "accessToken" ∈ tokenNames ∧
    (applyLogout sampleAccount true).getToken "accessToken" = Except.ok "" :=
  ⟨by decide, (logout_clears_local_state sampleAccount true).1 "accessToken" (by decide)⟩

/-- Saving then loading restores the profile list exactly. -/
theorem load_save_profiles (a : MojangAccount) :
    (loadAccount a.save).m_profiles = a.m_profiles := by
  show List.map _ (List.map _ a.m_profiles) = a.m_profiles
  rw [List.map_map]
  have h : ((fun r : String × String × Bool => MojangProfile.mk r.2.1 r.1 r.2.2) ∘
      (fun p : MojangProfile => (p.m_id, p.m_name, p.m_legacy))) = id :=
    funext fun p => rfl
  rw [h, List.map_id]

/-- C1: for every account whose selection satisfies the presence invariant,
saving and loading the produced document yields an account with identical
tokens, identical profile sequence (same elements, same order), identical
current-profile identifier, and identical user metadata. -/
theorem account_save_load_roundtrip (a : MojangAccount)
    (hcur : ∀ p, a.m_currentProfile = some p → p ∈ a.m_profiles) :
    (loadAccount a.save).tokens = a.tokens ∧
    (loadAccount a.save).m_profiles = a.m_profiles ∧
    (loadAccount a.save).currentProfileId = a.currentProfileId ∧
    (loadAccount a.save).m_user = a.m_user := by
  refine ⟨rfl, load_save_profiles a, ?_, rfl⟩
  have hps : List.map (fun r : String × String × Bool => MojangProfile.mk r.2.1 r.1 r.2.2)
      (List.map (fun p : MojangProfile => (p.m_id, p.m_name, p.m_legacy)) a.m_profiles) =
      a.m_profiles := load_save_profiles a
  cases hc : a.m_currentProfile with
  | none =>
    simp [loadAccount, MojangAccount.save, MojangAccount.currentProfileId, hc]
  | some p =>
    have hmem : p ∈ a.m_profiles := hcur p hc
    have hsome : (a.m_profiles.find? (fun q => q.m_id = p.m_id)).isSome := by
      rw [List.find?_isSome]
      exact ⟨p, hmem, by simp⟩
    obtain ⟨q, hq⟩ := Option.isSome_iff_exists.mp hsome
    have hqid : q.m_id = p.m_id := by simpa using List.find?_some hq
    have hfind : (List.map (fun r : String × String × Bool => MojangProfile.mk r.2.1 r.1 r.2.2)
        (List.map (fun p' : MojangProfile => (p'.m_id, p'.m_name, p'.m_legacy))
          a.m_profiles)).find? (fun q' => q'.m_id = p.m_id) = some q := by
      rw [hps]
      exact hq
    simp only [loadAccount, MojangAccount.save, MojangAccount.currentProfileId, hc,
      Option.map_some', Option.some_bind, hfind]
    exact congrArg some hqid

/-- Witness for C1 at the concrete account `sampleAccount`. -/
theorem account_save_load_roundtrip_witness :
    (loadAccount sampleAccount.save).tokens = sampleAccount.tokens ∧
    (loadAccount sampleAccount.save).m_profiles = sampleAccount.m_profiles ∧
    (loadAccount sampleAccount.save).currentProfileId = sampleAccount.currentProfileId ∧
    (loadAccount sampleAccount.save).m_user = sampleAccount.m_user :=
  account_save_load_roundtrip sampleAccount (by
    intro p hp
    have h2 : (some pAlice : Option MojangProfile) = some p := hp
    have h3 : p = pAlice := (Option.some.inj h2).symm
    subst h3
    decide)

/-- C2: in every reachable state of an account's task machine, at most one
task is `Running` at any instant; attempting to start a second task while
one is in flight fails immediately with `TaskAlreadyRunning` and leaves the
state — the remote-call count included — untouched; and the current-task
reference is cleared exactly once, on the owned task's completion (after
which the task is terminal and a further completion is a no-op). -/
theorem single_task_in_flight (evs : List AuthEvent) (ok : Bool) :
    (∀ j j' : Nat, (runEvents evs).tasks[j]? = some TaskState.Running →
        (runEvents evs).tasks[j']? = some TaskState.Running → j = j') ∧
    (∀ i : Nat, (runEvents evs).m_currentTask = some i →
        startTask (runEvents evs) = (runEvents evs, StartOutcome.TaskAlreadyRunning)) ∧
    (∀ i : Nat, (runEvents evs).m_currentTask = some i →
        (completeTask (runEvents evs) ok).m_currentTask = none ∧
        (completeTask (runEvents evs) ok).tasks[i]? ≠ some TaskState.Running) ∧
    ((runEvents evs).m_currentTask = none →
        completeTask (runEvents evs) ok = runEvents evs) := by
  have hinv := taskInv_run evs
  refine ⟨?_, ?_, ?_, ?_⟩
  · intro j j' hj hj'
    have h1 := (hinv j).mp hj
    have h2 := (hinv j').mp hj'
    rw [h1] at h2
    exact Option.some.inj h2
  · intro i hi
    simp [startTask, hi]
  · intro i hi
    constructor
    · simp [completeTask, hi]
    · simp only [completeTask, hi]
      rw [List.getElem?_set, if_pos rfl]
      by_cases hlen : i < (runEvents evs).tasks.length
      · rw [if_pos hlen]
        cases ok <;> simp
      · rw [if_neg hlen]
        simp
  · intro hn
    simp [completeTask, hn]

/-- Witness for C2: after one started task, a second start attempt fails
with `TaskAlreadyRunning` and changes nothing. -/
theorem single_task_in_flight_witness :
    (runEvents [AuthEvent.start]).m_currentTask = some 0 ∧
    startTask (runEvents [AuthEvent.start]) =
      (runEvents [AuthEvent.start], StartOutcome.TaskAlreadyRunning) :=
  ⟨by decide, (single_task_in_flight [AuthEvent.start] true).2.1 0 (by decide)⟩

end Mojang
